import Mathlib

/-!
Verification of the solar-dataset cleaning pipeline: a shallow embedding of the data-cleaning pipeline of
`src/sierra_leone_eda.ipynb` (cells 3 and 5): load a table, report missing
values, flag outlier rows by z-score, impute missing values with the
column median, drop the `Comments` column, clip negatives to zero.

A pandas `DataFrame` is modelled as an ordered list of named columns, each
column an ordered list of cells.  A cell is a missing marker (`NaN`), a
rational number (the notebook's floats, taken exactly), or free text.
-/

set_option autoImplicit false

namespace Solar

/-- A cell of the table: missing (`NaN`), numeric, or free text. -/
inductive Cell where
  | na : Cell
  | num (q : ℚ) : Cell
  | text (s : String) : Cell
deriving DecidableEq, Repr

/-- A table: an ordered list of named columns (a pandas `DataFrame` whose
column names are unique, as produced by `read_csv`). -/
structure Table where
  cols : List (String × List Cell)
deriving DecidableEq, Repr

/-- Number of rows: the length of the first column (`len(df)`); every
column of a well-formed table has this length. -/
def Table.nrows (t : Table) : ℕ :=
  match t.cols with
  | [] => 0
  | p :: _ => p.2.length

/-- Column lookup by name (`df[name]`), first match. -/
def Table.getCol (t : Table) (name : String) : Option (List Cell) :=
  (t.cols.find? (fun p => p.1 == name)).map Prod.snd

/-- Well-formedness of the in-memory `DataFrame`: rectangular (every
column has `nrows` cells) and unique column names. -/
def Table.WF (t : Table) : Prop :=
  (∀ p ∈ t.cols, p.2.length = t.nrows) ∧ (t.cols.map Prod.fst).Nodup

/-- The designated numeric measurement columns
(`key_columns` in cell 5 of the notebook). -/
def keyColumns : List String :=
  ["GHI", "DNI", "DHI", "ModA", "ModB", "WS", "WSgust"]

/-- The non-missing numeric values of a column, in row order
(the values pandas statistics skip `NaN` over). -/
def colValues (cells : List Cell) : List ℚ :=
  cells.filterMap (fun c =>
    match c with
    | Cell.num q => some q
    | _ => none)

/-- Number of missing cells of a column (`df.isna().sum()` for one column). -/
def missingCount (cells : List Cell) : ℕ :=
  cells.countP (fun c => c == Cell.na)

/-- Pandas `Series.median()` with default `skipna=True`: the middle element of
the non-missing values in sorted order, the mean of the two middle
elements for an even count, and `NaN` (here `none`) for an empty column. -/
def median (xs : List ℚ) : Option ℚ :=
  let s := List.insertionSort (· ≤ ·) xs
  if s.length = 0 then none
  else if s.length % 2 = 1 then some (s.getD (s.length / 2) 0)
  else some ((s.getD (s.length / 2 - 1) 0 + s.getD (s.length / 2) 0) / 2)

/-- Pandas `Series.fillna(value)` on one cell: a missing cell takes the fill
value when there is one; filling with `NaN` (`none`, the median of an
all-missing column) leaves the cell missing. -/
def fillnaCell (m : Option ℚ) (c : Cell) : Cell :=
  match c, m with
  | Cell.na, some q => Cell.num q
  | c, _ => c

/-- One step of the imputation loop:
`df[col] = df[col].fillna(df[col].median())`. -/
def imputeCol (cells : List Cell) : List Cell :=
  cells.map (fillnaCell (median (colValues cells)))

/-- Apply a per-column transformation to every column, keeping names and
order (pandas column assignment `df[col] = f(df[col])`). -/
def mapCols (f : String → List Cell → List Cell) (t : Table) : Table :=
  ⟨t.cols.map (fun p => (p.1, f p.1 p.2))⟩

/-- The Imputer stage: the `for col in key_columns` loop of cell 5.
The columns are independent (each median is computed from that column's
own cells), so the sequential loop is this simultaneous per-column map. -/
def imputeTable (t : Table) : Table :=
  mapCols (fun n cs => if n ∈ keyColumns then imputeCol cs else cs) t

/-- The drop step `df.drop(columns=['Comments'], errors='ignore')`. -/
def dropComments (t : Table) : Table :=
  ⟨t.cols.filter (fun p => p.1 != "Comments")⟩

/-- The operation `clip(lower=0)` on one cell: negatives go to `0`; missing cells and
text are untouched. -/
def clipCell (c : Cell) : Cell :=
  match c with
  | Cell.num q => Cell.num (max q 0)
  | c => c

/-- The assignment `df[key_columns] = df[key_columns].clip(lower=0)`. -/
def clipTable (t : Table) : Table :=
  mapCols (fun n cs => if n ∈ keyColumns then cs.map clipCell else cs) t

/-- The Normalizer stage of the spec: drop the annotation column, then
clip negatives in the designated columns (lines 85 and 88 of cell 5). -/
def normalize (t : Table) : Table :=
  clipTable (dropComments t)

/-- The whole mutating pipeline of cell 5 applied to the loaded table:
impute, drop `Comments`, clip.  (Profiling and outlier detection read the
table without changing it, and `to_csv` only serializes the result.) -/
def clean (t : Table) : Table :=
  normalize (imputeTable t)

/-- Mean of a column's non-missing values (`zscore` uses the plain mean
with `nan_policy='omit'`). -/
def colMean (xs : List ℚ) : ℚ :=
  xs.sum / (xs.length : ℚ)

/-- Population variance (`ddof=0`, scipy's `zscore` default) of a
column's non-missing values. -/
def colVar (xs : List ℚ) : ℚ :=
  ((xs.map (fun v => (v - colMean xs) ^ 2)).sum) / (xs.length : ℚ)

/-- Whether `abs(zscore(cell)) > 3` for a cell of a column whose
non-missing values are `xs`.  The z-score is `(v - mean) / std` with
`std = sqrt(var)`; for `std > 0` the comparison `|v - mean| / std > 3`
is exactly `(v - mean)^2 > 9 * var`, and for `std = 0` (or an empty
column) the float z-scores are `NaN`, which never compares `> 3`.
A missing cell gets no z-score (`nan_policy='omit'`), so never flags. -/
def cellOutlier (xs : List ℚ) (c : Cell) : Bool :=
  match c with
  | Cell.num v => decide (0 < colVar xs) && decide (9 * colVar xs < (v - colMean xs) ^ 2)
  | _ => false

/-- The row flags `outliers = (df[key_columns].apply(zscore, nan_policy='omit').abs() > 3).any(axis=1)`:
one flag per row, true when any designated column's cell in that row has
absolute z-score above 3. -/
def outlierFlags (t : Table) : List Bool :=
  (List.range t.nrows).map (fun i =>
    keyColumns.any (fun name =>
      match t.getCol name with
      | some cells => cellOutlier (colValues cells) (cells.getD i Cell.na)
      | none => false))

/-- The outlier-detection stage as a state transformation: it returns the
table it was given (cell 5 assigns nothing to `df` here, it only computes
`z_scores` and `outliers` and prints) together with the flags. -/
def detectStage (t : Table) : Table × List Bool :=
  (t, outlierFlags t)

/-- Cell 3's `missing_report`: for every column, its name, missing count,
and missing percentage `(df.isna().sum() / len(df)) * 100`.  (The
notebook then prints only the rows of this report with percentage `> 5`,
but the report itself covers every column.) -/
def missingReport (t : Table) : List (String × ℕ × ℚ) :=
  t.cols.map (fun p =>
    (p.1, missingCount p.2, (missingCount p.2 : ℚ) / (t.nrows : ℚ) * 100))

/-- A cell that is already clean for the Normalizer: not missing, and not
a negative number. -/
def cellClean (c : Cell) : Bool :=
  match c with
  | Cell.na => false
  | Cell.num v => decide (0 ≤ v)
  | Cell.text _ => true

/-- What the pipeline does to one surviving column: designated columns
are imputed then clipped, all others pass through untouched. -/
def cleanCol (name : String) (cells : List Cell) : List Cell :=
  if name ∈ keyColumns then (imputeCol cells).map clipCell else cells

/-! ## Concrete input tables used as counterexamples and witnesses -/

/-- A loaded table whose `GHI` column has the negative median `-3` and a
missing cell. -/
def tC1 : Table :=
  ⟨[("Timestamp", [Cell.text "t0", Cell.text "t1", Cell.text "t2", Cell.text "t3"]),
    ("GHI", [Cell.num (-5), Cell.num (-3), Cell.num (-1), Cell.na]),
    ("DNI", [Cell.num 1, Cell.num 2, Cell.num 3, Cell.num 4]),
    ("DHI", [Cell.num 1, Cell.num 2, Cell.num 3, Cell.num 4]),
    ("ModA", [Cell.num 1, Cell.num 2, Cell.num 3, Cell.num 4]),
    ("ModB", [Cell.num 1, Cell.num 2, Cell.num 3, Cell.num 4]),
    ("WS", [Cell.num 1, Cell.num 2, Cell.num 3, Cell.num 4]),
    ("WSgust", [Cell.num 1, Cell.num 2, Cell.num 3, Cell.num 4]),
    ("Comments", [Cell.na, Cell.na, Cell.text "dirty", Cell.na])]⟩

/-- A loaded table whose `GHI` column has one missing cell and the
nonnegative median `3`. -/
def tC1w : Table :=
  ⟨[("Timestamp", [Cell.text "t0", Cell.text "t1", Cell.text "t2", Cell.text "t3"]),
    ("GHI", [Cell.num 1, Cell.na, Cell.num 3, Cell.num 7]),
    ("DNI", [Cell.num 1, Cell.num 2, Cell.num 3, Cell.num 4]),
    ("DHI", [Cell.num 1, Cell.num 2, Cell.num 3, Cell.num 4]),
    ("ModA", [Cell.num 1, Cell.num 2, Cell.num 3, Cell.num 4]),
    ("ModB", [Cell.num 1, Cell.num 2, Cell.num 3, Cell.num 4]),
    ("WS", [Cell.num 1, Cell.num 2, Cell.num 3, Cell.num 4]),
    ("WSgust", [Cell.num 1, Cell.num 2, Cell.num 3, Cell.num 4])]⟩

/-- A loaded table whose `GHI` column is entirely missing. -/
def tC2 : Table :=
  ⟨[("Timestamp", [Cell.text "t0", Cell.text "t1"]),
    ("GHI", [Cell.na, Cell.na]),
    ("DNI", [Cell.num 1, Cell.num 2]),
    ("DHI", [Cell.num 1, Cell.num 2]),
    ("ModA", [Cell.num 1, Cell.num 2]),
    ("ModB", [Cell.num 1, Cell.num 2]),
    ("WS", [Cell.num 1, Cell.num 2]),
    ("WSgust", [Cell.num 1, Cell.num 2])]⟩

/-- An 11-row table whose `GHI` column ends in a spike (z-score √10 > 3). -/
def tC3w : Table :=
  ⟨[("Timestamp", (List.range 11).map (fun i => Cell.text (toString i))),
    ("GHI", (List.range 10).map (fun _ => Cell.num 0) ++ [Cell.num 11]),
    ("DNI", (List.range 11).map (fun _ => Cell.num 0)),
    ("DHI", (List.range 11).map (fun _ => Cell.num 0)),
    ("ModA", (List.range 11).map (fun _ => Cell.num 0)),
    ("ModB", (List.range 11).map (fun _ => Cell.num 0)),
    ("WS", (List.range 11).map (fun _ => Cell.num 0)),
    ("WSgust", (List.range 11).map (fun _ => Cell.num 0))]⟩

/-- A table whose `GHI` column holds a negative value. -/
def tC4w : Table :=
  ⟨[("Timestamp", [Cell.text "t0", Cell.text "t1", Cell.text "t2"]),
    ("GHI", [Cell.num (-2), Cell.num 5, Cell.num 1]),
    ("WS", [Cell.num 1, Cell.num 1, Cell.num 1])]⟩

/-- A table with a timestamp column, a designated column with a missing
cell, an extra measurement column, and an annotation column. -/
def tC5w : Table :=
  ⟨[("Timestamp", [Cell.text "t0", Cell.text "t1", Cell.text "t2", Cell.text "t3"]),
    ("GHI", [Cell.na, Cell.num 2, Cell.num 4, Cell.num 6]),
    ("Tamb", [Cell.num 20, Cell.num 21, Cell.num 22, Cell.num 23]),
    ("Comments", [Cell.na, Cell.na, Cell.na, Cell.na])]⟩

/-- A two-row table with one missing `GHI` cell. -/
def tC6w : Table :=
  ⟨[("Timestamp", [Cell.text "t0", Cell.text "t1"]),
    ("GHI", [Cell.na, Cell.num 1])]⟩

/-- A table with no annotation column. -/
def tC7w : Table :=
  ⟨[("Timestamp", [Cell.text "t0"]),
    ("GHI", [Cell.num 1])]⟩

/-- An already-cleaned table: no `Comments` column, and no missing or
negative cell in any designated column. -/
def tC8w : Table :=
  ⟨[("Timestamp", [Cell.text "t0", Cell.text "t1"]),
    ("GHI", [Cell.num 1, Cell.num 0]),
    ("DNI", [Cell.num 2, Cell.num 3]),
    ("Tamb", [Cell.num (-4), Cell.na])]⟩

/-- A table whose non-designated column `Tamb` holds a negative value and
a missing value. -/
def tC10w : Table :=
  ⟨[("Timestamp", [Cell.text "t0", Cell.text "t1", Cell.text "t2"]),
    ("GHI", [Cell.num 1, Cell.num 2, Cell.num 3]),
    ("Tamb", [Cell.num (-7), Cell.na, Cell.num 2]),
    ("Comments", [Cell.na, Cell.na, Cell.na])]⟩

/-! ## Basic lemmas about column lookup and the pipeline stages -/

theorem getCol_mapCols (f : String → List Cell → List Cell) (t : Table) (name : String) :
    (mapCols f t).getCol name = (t.getCol name).map (f name) := by
  obtain ⟨cols⟩ := t
  simp only [mapCols, Table.getCol]
  induction cols with
  | nil => rfl
  | cons p l ih =>
    by_cases hp : p.1 = name
    · subst hp
      simp [List.find?_cons_of_pos]
    · have hb : (p.1 == name) = false := beq_eq_false_iff_ne.2 hp
      simp only [List.map_cons]
      rw [List.find?_cons_of_neg _ (by simp [hb]), List.find?_cons_of_neg _ (by simp [hb])]
      exact ih

theorem getCol_dropComments (t : Table) (name : String) (h : name ≠ "Comments") :
    (dropComments t).getCol name = t.getCol name := by
  obtain ⟨cols⟩ := t
  simp only [dropComments, Table.getCol]
  induction cols with
  | nil => rfl
  | cons p l ih =>
    by_cases hp : p.1 = "Comments"
    · have hb : (p.1 == name) = false := beq_eq_false_iff_ne.2 (by rw [hp]; exact (Ne.symm h))
      rw [List.filter_cons_of_neg (by simp [hp]), List.find?_cons_of_neg _ (by simp [hb])]
      exact ih
    · rw [List.filter_cons_of_pos (by simp [hp])]
      by_cases hn : p.1 = name
      · rw [List.find?_cons_of_pos _ (by simp [hn]), List.find?_cons_of_pos _ (by simp [hn])]
      · rw [List.find?_cons_of_neg _ (by simp [hn]), List.find?_cons_of_neg _ (by simp [hn])]
        exact ih

theorem dropComments_getCol_comments (t : Table) :
    (dropComments t).getCol "Comments" = none := by
  simp only [dropComments, Table.getCol, Option.map_eq_none']
  rw [List.find?_eq_none]
  intro p hp
  have := (List.mem_filter.1 hp).2
  simpa [bne] using this

theorem dropComments_eq_self (t : Table) (h : t.getCol "Comments" = none) :
    dropComments t = t := by
  obtain ⟨cols⟩ := t
  simp only [Table.getCol, Option.map_eq_none'] at h
  simp only [dropComments]
  congr 1
  apply List.filter_eq_self.2
  intro p hp
  have := List.find?_eq_none.1 h p hp
  simpa [bne] using this

theorem mem_key_ne_comments {name : String} (hk : name ∈ keyColumns) :
    name ≠ "Comments" := by
  intro h
  subst h
  revert hk
  decide

theorem imputeTable_getCol_key (t : Table) (name : String) (hk : name ∈ keyColumns)
    (cells : List Cell) (hc : t.getCol name = some cells) :
    (imputeTable t).getCol name = some (imputeCol cells) := by
  unfold imputeTable
  rw [getCol_mapCols, hc]
  simp [hk]

theorem normalize_getCol_key (t : Table) (name : String) (hk : name ∈ keyColumns)
    (cells : List Cell) (hc : t.getCol name = some cells) :
    (normalize t).getCol name = some (cells.map clipCell) := by
  unfold normalize clipTable
  rw [getCol_mapCols, getCol_dropComments t name (mem_key_ne_comments hk), hc]
  simp [hk]

theorem clean_getCol_key (t : Table) (name : String) (hk : name ∈ keyColumns)
    (cells : List Cell) (hc : t.getCol name = some cells) :
    (clean t).getCol name = some ((imputeCol cells).map clipCell) := by
  unfold clean
  exact normalize_getCol_key _ _ hk _ (imputeTable_getCol_key t name hk cells hc)

theorem clean_getCol_notkey (t : Table) (name : String) (hk : name ∉ keyColumns)
    (hc : name ≠ "Comments") :
    (clean t).getCol name = t.getCol name := by
  unfold clean normalize clipTable imputeTable
  rw [getCol_mapCols, getCol_dropComments _ _ hc, getCol_mapCols]
  simp [hk]

theorem cleanCol_length (name : String) (cells : List Cell) :
    (cleanCol name cells).length = cells.length := by
  unfold cleanCol imputeCol
  by_cases h : name ∈ keyColumns <;> simp [h]

theorem clean_cols (t : Table) :
    (clean t).cols =
      (t.cols.filter (fun p => p.1 != "Comments")).map (fun p => (p.1, cleanCol p.1 p.2)) := by
  obtain ⟨cols⟩ := t
  simp only [clean, normalize, imputeTable, clipTable, dropComments, mapCols]
  rw [List.filter_map, List.map_map]
  rw [List.filter_congr (fun p _ => (rfl :
    ((fun q => q.1 != "Comments") ((fun q : String × List Cell =>
      (q.1, if q.1 ∈ keyColumns then imputeCol q.2 else q.2)) p)) = (p.1 != "Comments")))]
  apply List.map_congr_left
  intro p _
  by_cases hp : p.1 ∈ keyColumns <;> simp [cleanCol, hp]

/-! ## The squared z-score test against the real-valued standardized score -/

theorem outlier_sq_iff (μ v w : ℚ) :
    (0 < w ∧ 9 * w < (v - μ) ^ 2) ↔
      3 < |((v : ℝ) - (μ : ℝ))| / Real.sqrt ((w : ℝ)) := by
  by_cases hw : 0 < w
  · have hw' : (0 : ℝ) < (w : ℝ) := by exact_mod_cast hw
    have hs : 0 < Real.sqrt (w : ℝ) := Real.sqrt_pos.2 hw'
    have hss : Real.sqrt (w : ℝ) * Real.sqrt (w : ℝ) = (w : ℝ) :=
      Real.mul_self_sqrt hw'.le
    rw [lt_div_iff₀ hs]
    constructor
    · rintro ⟨-, h9⟩
      have h9' : 9 * (w : ℝ) < ((v : ℝ) - (μ : ℝ)) ^ 2 := by exact_mod_cast h9
      by_contra hle
      push_neg at hle
      have h2 := mul_le_mul hle hle (abs_nonneg _) (by positivity)
      nlinarith [sq_abs ((v : ℝ) - (μ : ℝ))]
    · intro h
      refine ⟨hw, ?_⟩
      have h2 := mul_self_lt_mul_self (by positivity) h
      have h9' : 9 * (w : ℝ) < ((v : ℝ) - (μ : ℝ)) ^ 2 := by
        nlinarith [sq_abs ((v : ℝ) - (μ : ℝ))]
      exact_mod_cast h9'
  · have hle : (w : ℝ) ≤ 0 := by exact_mod_cast le_of_not_lt hw
    rw [Real.sqrt_eq_zero'.2 hle, div_zero]
    simp [hw]

theorem cellOutlier_iff (xs : List ℚ) (c : Cell) :
    cellOutlier xs c = true ↔
      ∃ v : ℚ, c = Cell.num v ∧
        3 < |((v : ℝ) - (colMean xs : ℝ))| / Real.sqrt ((colVar xs : ℝ)) := by
  cases c with
  | na => simp [cellOutlier]
  | text s => simp [cellOutlier]
  | num v =>
    simp only [cellOutlier, Bool.and_eq_true, decide_eq_true_eq, Cell.num.injEq]
    rw [outlier_sq_iff (colMean xs) v (colVar xs)]
    constructor
    · intro h
      exact ⟨v, rfl, h⟩
    · rintro ⟨w, rfl, h⟩
      exact h

theorem outlierFlags_getD (t : Table) (i : ℕ) (hi : i < t.nrows) :
    (outlierFlags t).getD i false =
      keyColumns.any (fun name =>
        match t.getCol name with
        | some cells => cellOutlier (colValues cells) (cells.getD i Cell.na)
        | none => false) := by
  unfold outlierFlags
  rw [List.getD_eq_getElem?_getD, List.getElem?_map, List.getElem?_range hi]
  rfl

/-! ## The claims -/

/-- Claim C3. The Outlier Detector flags row `i` exactly when some
designated column is present with a non-missing value `v` in row `i`
whose absolute standardized score `|v - mean| / sqrt(var)` (mean and
population variance over the column's non-missing values, missing cells
getting no score) strictly exceeds `3`. -/
theorem claim_C3 (t : Table) (i : ℕ) (hi : i < t.nrows) :
    (outlierFlags t).getD i false = true ↔
      ∃ name ∈ keyColumns, ∃ cells : List Cell, ∃ v : ℚ,
        t.getCol name = some cells ∧ cells.getD i Cell.na = Cell.num v ∧
        3 < |((v : ℝ) - (colMean (colValues cells) : ℝ))| /
              Real.sqrt ((colVar (colValues cells) : ℝ)) := by
  rw [outlierFlags_getD t i hi, List.any_eq_true]
  apply exists_congr
  intro name
  apply and_congr_right
  intro hname
  cases hcol : t.getCol name with
  | none => simp
  | some cells =>
    rw [cellOutlier_iff]
    constructor
    · rintro ⟨v, hv, h⟩
      exact ⟨cells, v, rfl, hv, h⟩
    · rintro ⟨cells2, v, hc2, hv, h⟩
      rw [Option.some_inj] at hc2
      subst hc2
      exact ⟨v, hv, h⟩

/-- Witness for C3 at a concrete table: row 10 of `tC3w` satisfies the
hypothesis `10 < nrows`, and the characterization holds there. -/
theorem claim_C3_witness :
    10 < tC3w.nrows ∧
      ((outlierFlags tC3w).getD 10 false = true ↔
        ∃ name ∈ keyColumns, ∃ cells : List Cell, ∃ v : ℚ,
          tC3w.getCol name = some cells ∧ cells.getD 10 Cell.na = Cell.num v ∧
          3 < |((v : ℝ) - (colMean (colValues cells) : ℝ))| /
                Real.sqrt ((colVar (colValues cells) : ℝ))) :=
  ⟨by decide, claim_C3 tC3w 10 (by decide)⟩

/-- Claim C9. The Outlier Detector does not mutate the table (it returns it
unchanged), and running it twice on the same table yields the same flags:
the notebook's detection lines only compute `z_scores` and `outliers` and
print them, assigning nothing to `df`. -/
theorem claim_C9 (t : Table) :
    (detectStage t).1 = t ∧
      (detectStage ((detectStage t).1)).2 = (detectStage t).2 :=
  ⟨rfl, rfl⟩

/-- Claim C7. The Normalizer's output never has a `Comments` column, and
when `Comments` is absent from the input the drop step (run with
`errors='ignore'`) is a no-op rather than an error. -/
theorem claim_C7 (t : Table) :
    (normalize t).getCol "Comments" = none ∧
      (t.getCol "Comments" = none → dropComments t = t) := by
  refine ⟨?_, dropComments_eq_self t⟩
  unfold normalize clipTable
  rw [getCol_mapCols, dropComments_getCol_comments]
  rfl

/-- Witness for C7: the inner implication discharged at the concrete
`Comments`-free table `tC7w`. -/
theorem claim_C7_witness :
    (normalize tC7w).getCol "Comments" = none ∧ dropComments tC7w = tC7w :=
  ⟨(claim_C7 tC7w).1, (claim_C7 tC7w).2 (by decide)⟩

/-- Claim C10. Frame property: a column that is neither one of the seven
designated numeric columns nor `Comments` (e.g. `Timestamp`, `Cleaning`,
`Tamb`, `RH`, `WD`) passes through the whole cleaning pipeline with every
value unchanged, missing and negative ones included. -/
theorem claim_C10 (t : Table) (name : String) (hk : name ∉ keyColumns)
    (hc : name ≠ "Comments") :
    (clean t).getCol name = t.getCol name :=
  clean_getCol_notkey t name hk hc

/-- Witness for C10: the `Tamb` column of `tC10w`, which holds a negative
value and a missing value, is untouched by the pipeline. -/
theorem claim_C10_witness :
    (clean tC10w).getCol "Tamb" = tC10w.getCol "Tamb" :=
  claim_C10 tC10w "Tamb" (by decide) (by decide)

/-- Claim C4. After the Normalizer, a designated column is its input mapped
cell-by-cell through `clip(lower=0)`: every numeric value of the output
is `≥ 0`, a negative input value becomes `0`, and a nonnegative input
value is unchanged. -/
theorem claim_C4 (t : Table) (name : String) (hk : name ∈ keyColumns)
    (cells : List Cell) (hc : t.getCol name = some cells) :
    (normalize t).getCol name = some (cells.map clipCell) ∧
      (∀ c ∈ cells.map clipCell, ∀ v : ℚ, c = Cell.num v → 0 ≤ v) ∧
      (∀ v : ℚ, v < 0 → clipCell (Cell.num v) = Cell.num 0) ∧
      (∀ v : ℚ, 0 ≤ v → clipCell (Cell.num v) = Cell.num v) := by
  refine ⟨normalize_getCol_key t name hk cells hc, ?_, ?_, ?_⟩
  · intro c hcm v hcv
    obtain ⟨c0, hc0, rfl⟩ := List.mem_map.1 hcm
    cases c0 with
    | na => simp [clipCell] at hcv
    | text s => simp [clipCell] at hcv
    | num q =>
      simp only [clipCell, Cell.num.injEq] at hcv
      exact hcv ▸ le_max_right q 0
  · intro v hv
    simp [clipCell, max_eq_right hv.le]
  · intro v hv
    simp [clipCell, max_eq_left hv]

/-- Witness for C4 at the concrete table `tC4w`, whose `GHI` column holds
the negative value `-2`. -/
theorem claim_C4_witness :
    (normalize tC4w).getCol "GHI" =
        some ([Cell.num (-2), Cell.num 5, Cell.num 1].map clipCell) ∧
      (∀ c ∈ [Cell.num (-2), Cell.num 5, Cell.num 1].map clipCell,
        ∀ v : ℚ, c = Cell.num v → 0 ≤ v) ∧
      (∀ v : ℚ, v < 0 → clipCell (Cell.num v) = Cell.num 0) ∧
      (∀ v : ℚ, 0 ≤ v → clipCell (Cell.num v) = Cell.num v) :=
  claim_C4 tC4w "GHI" (by decide)
    [Cell.num (-2), Cell.num 5, Cell.num 1] (by decide)

/-- Claim C6. For a table with at least one row, the missing-value report
lists every column (same length as the column list), and for each column
it holds that column's missing count and percentage
`count / nrows * 100`. -/
theorem claim_C6 (t : Table) (h : 0 < t.nrows) :
    (missingReport t).length = t.cols.length ∧
      ∀ p ∈ t.cols,
        (p.1, missingCount p.2, (missingCount p.2 : ℚ) / (t.nrows : ℚ) * 100) ∈
          missingReport t := by
  refine ⟨by simp [missingReport], ?_⟩
  intro p hp
  exact List.mem_map.2 ⟨p, hp, rfl⟩

/-- Witness for C6 at the two-row table `tC6w`. -/
theorem claim_C6_witness :
    (missingReport tC6w).length = tC6w.cols.length ∧
      ∀ p ∈ tC6w.cols,
        (p.1, missingCount p.2, (missingCount p.2 : ℚ) / (tC6w.nrows : ℚ) * 100) ∈
          missingReport tC6w :=
  claim_C6 tC6w (by decide)

/-- Claim C8. The Normalizer is idempotent: on a table with no `Comments`
column and no missing or negative value in any designated column (i.e.,
on its own output when imputation succeeded), it is the identity. -/
theorem claim_C8 (t : Table) (hcom : t.getCol "Comments" = none)
    (hcln : ∀ p ∈ t.cols, p.1 ∈ keyColumns → ∀ c ∈ p.2, cellClean c = true) :
    normalize t = t := by
  unfold normalize
  rw [dropComments_eq_self t hcom]
  have hpt : ∀ p ∈ t.cols,
      (p.1, if p.1 ∈ keyColumns then p.2.map clipCell else p.2) = p := by
    intro p hp
    by_cases hk : p.1 ∈ keyColumns
    · rw [if_pos hk]
      have h1 : ∀ c ∈ p.2, clipCell c = c := by
        intro c hcmem
        have hcc := hcln p hp hk c hcmem
        cases c with
        | na => simp [cellClean] at hcc
        | text s => rfl
        | num q =>
          simp only [cellClean, decide_eq_true_eq] at hcc
          simp [clipCell, max_eq_left hcc]
      have hcells : p.2.map clipCell = p.2 := by
        calc p.2.map clipCell = p.2.map id := List.map_congr_left h1
          _ = p.2 := List.map_id p.2
      rw [hcells]
    · rw [if_neg hk]
  obtain ⟨cols⟩ := t
  simp only [clipTable, mapCols]
  congr 1
  calc cols.map (fun p => (p.1, if p.1 ∈ keyColumns then p.2.map clipCell else p.2))
      = cols.map id := List.map_congr_left hpt
    _ = cols := List.map_id cols

/-- Witness for C8: the already-clean table `tC8w` is a fixed point of
the Normalizer. -/
theorem claim_C8_witness : normalize tC8w = tC8w :=
  claim_C8 tC8w (by decide) (by decide)

/-- Claim C5. The pipeline preserves the row count and the row order: for a
rectangular input table with a `Timestamp` column, the output has the
same number of rows, and every surviving column of the output is its
input column mapped cell-by-cell (so row `i` of the output comes from row
`i` of the input; flagged outlier rows are never removed). -/
theorem claim_C5 (t : Table) (hwf : ∀ p ∈ t.cols, p.2.length = t.nrows)
    (ts : List Cell) (hts : t.getCol "Timestamp" = some ts) :
    (clean t).nrows = t.nrows ∧
      ∀ name cells, name ≠ "Comments" → t.getCol name = some cells →
        ∃ g : Cell → Cell, (clean t).getCol name = some (cells.map g) := by
  constructor
  · obtain ⟨q, hqf, hq2⟩ := Option.map_eq_some'.1 hts
    have hq : q ∈ t.cols := List.mem_of_find?_eq_some hqf
    have hq1 : q.1 = "Timestamp" := by
      have := List.find?_some hqf
      simpa using this
    have hclean := clean_cols t
    cases hfc : t.cols.filter (fun p => p.1 != "Comments") with
    | nil =>
      exfalso
      have hqmem : q ∈ t.cols.filter (fun p => p.1 != "Comments") :=
        List.mem_filter.2 ⟨hq, by rw [hq1]; decide⟩
      rw [hfc] at hqmem
      exact List.not_mem_nil q hqmem
    | cons p l =>
      rw [hfc] at hclean
      have h2 : clean t =
          ⟨(p :: l).map (fun r => (r.1, cleanCol r.1 r.2))⟩ := by
        rw [← hclean]
      rw [h2]
      show (cleanCol p.1 p.2).length = t.nrows
      rw [cleanCol_length]
      exact hwf p (List.mem_of_mem_filter (by rw [hfc]; exact List.mem_cons_self p l))
  · intro name cells hnc hcells
    by_cases hk : name ∈ keyColumns
    · refine ⟨clipCell ∘ fillnaCell (median (colValues cells)), ?_⟩
      rw [clean_getCol_key t name hk cells hcells]
      rw [imputeCol, List.map_map]
    · exact ⟨id, by rw [clean_getCol_notkey t name hk hnc, hcells, List.map_id]⟩

/-- Witness for C5 at the concrete table `tC5w` (four rows, a missing
`GHI` cell, an annotation column). -/
theorem claim_C5_witness :
    (clean tC5w).nrows = tC5w.nrows ∧
      ∀ name cells, name ≠ "Comments" → tC5w.getCol name = some cells →
        ∃ g : Cell → Cell, (clean tC5w).getCol name = some (cells.map g) :=
  claim_C5 tC5w (by decide)
    [Cell.text "t0", Cell.text "t1", Cell.text "t2", Cell.text "t3"] (by decide)

/-- Counterexample to C1 as stated: in `tC1` the `GHI` column is
`[-5, -3, -1, NaN]` with pre-imputation median `-3`, yet after the full
pipeline the cell that was missing holds `0` (the imputed median was then
clipped), not the median `-3`. -/
theorem claim_C1_counterexample :
    tC1.getCol "GHI" = some [Cell.num (-5), Cell.num (-3), Cell.num (-1), Cell.na] ∧
      median (colValues [Cell.num (-5), Cell.num (-3), Cell.num (-1), Cell.na]) =
        some (-3) ∧
      (clean tC1).getCol "GHI" =
        some [Cell.num 0, Cell.num 0, Cell.num 0, Cell.num 0] ∧
      Cell.num (0 : ℚ) ≠ Cell.num (-3) :=
  ⟨by decide, by decide, by decide, by decide⟩

/-- Claim C1 (amended). For a designated column with at least one
non-missing input value (median `m` defined), the pipeline leaves no
missing value in the column, and every cell that was missing on input
holds `max m 0`: the pre-imputation column median, clipped at zero by the
Normalizer that runs after imputation. -/
theorem claim_C1 (t : Table) (name : String) (hk : name ∈ keyColumns)
    (cells : List Cell) (hc : t.getCol name = some cells)
    (m : ℚ) (hm : median (colValues cells) = some m) :
    ∃ out : List Cell, (clean t).getCol name = some out ∧
      out.length = cells.length ∧
      (∀ c ∈ out, c ≠ Cell.na) ∧
      (∀ i : ℕ, i < cells.length → cells.getD i Cell.na = Cell.na →
        out.getD i Cell.na = Cell.num (max m 0)) := by
  refine ⟨(imputeCol cells).map clipCell, clean_getCol_key t name hk cells hc,
    by simp [imputeCol], ?_, ?_⟩
  · intro c hcm
    rw [imputeCol, List.map_map] at hcm
    obtain ⟨c0, hc0, rfl⟩ := List.mem_map.1 hcm
    cases c0 with
    | na => simp [Function.comp, fillnaCell, hm, clipCell]
    | num q => simp [Function.comp, fillnaCell, clipCell]
    | text s => simp [Function.comp, fillnaCell, clipCell]
  · intro i hi hna
    rw [imputeCol, List.map_map]
    rw [List.getD_eq_getElem?_getD, List.getElem?_map]
    have hcell : cells[i]? = some Cell.na := by
      rw [List.getElem?_eq_getElem hi, ← List.getD_eq_getElem cells Cell.na hi, hna]
    rw [hcell]
    simp [Function.comp, fillnaCell, hm, clipCell]

/-- Witness for the amended C1 at `tC1w`: `GHI` is `[1, NaN, 3, 7]`,
median `3`, and the missing cell ends as `max 3 0 = 3`. -/
theorem claim_C1_witness :
    ∃ out : List Cell, (clean tC1w).getCol "GHI" = some out ∧
      out.length = ([Cell.num 1, Cell.na, Cell.num 3, Cell.num 7] : List Cell).length ∧
      (∀ c ∈ out, c ≠ Cell.na) ∧
      (∀ i : ℕ,
        i < ([Cell.num 1, Cell.na, Cell.num 3, Cell.num 7] : List Cell).length →
        ([Cell.num 1, Cell.na, Cell.num 3, Cell.num 7] : List Cell).getD i Cell.na =
          Cell.na →
        out.getD i Cell.na = Cell.num (max 3 0)) :=
  claim_C1 tC1w "GHI" (by decide)
    [Cell.num 1, Cell.na, Cell.num 3, Cell.num 7] (by decide) 3 (by decide)

/-- Counterexample to C2 as stated: in `tC2` the `GHI` column is entirely
missing; the pipeline raises no error at the Imputer (the model is total,
as `fillna` with a `NaN` median is a silent no-op in the source) and the
output column still holds its missing values, contradicting "it does not
... leave the column's missing values in place". -/
theorem claim_C2_counterexample :
    tC2.getCol "GHI" = some [Cell.na, Cell.na] ∧
      median (colValues [Cell.na, Cell.na]) = none ∧
      (clean tC2).getCol "GHI" = some [Cell.na, Cell.na] :=
  ⟨by decide, by decide, by decide⟩

/-- Claim C2 (amended). If a designated column has no non-missing value,
its median is undefined (`NaN`), `fillna` with it is a no-op, and the
pipeline silently passes the column through unchanged — missing cells and
all; no error is raised and no default is written. -/
theorem claim_C2 (t : Table) (name : String) (hk : name ∈ keyColumns)
    (cells : List Cell) (hc : t.getCol name = some cells)
    (hempty : colValues cells = []) :
    (clean t).getCol name = some cells := by
  rw [clean_getCol_key t name hk cells hc]
  have hmed : median (colValues cells) = none := by rw [hempty]; rfl
  have hnonum : ∀ c ∈ cells, ∀ v : ℚ, c ≠ Cell.num v := by
    intro c hcm v hv
    have hfm := List.filterMap_eq_nil_iff.1 hempty c hcm
    rw [hv] at hfm
    simp at hfm
  have hfix : ∀ c ∈ cells, (clipCell ∘ fillnaCell none) c = c := by
    intro c hcm
    cases c with
    | na => rfl
    | text s => rfl
    | num q => exact absurd rfl (hnonum _ hcm q)
  congr 1
  rw [imputeCol, hmed, List.map_map]
  calc cells.map (clipCell ∘ fillnaCell none)
      = cells.map id := List.map_congr_left hfix
    _ = cells := List.map_id cells

/-- Witness for the amended C2: the all-missing `GHI` column of `tC2`
comes out of the pipeline exactly as it went in. -/
theorem claim_C2_witness :
    (clean tC2).getCol "GHI" = some [Cell.na, Cell.na] :=
  claim_C2 tC2 "GHI" (by decide) [Cell.na, Cell.na] (by decide) (by decide)

end Solar
